import Mathlib

/-!
Verification of the VT Woods chat backend's scope classifier and response
router (`src/server.js`, plus the retrieval-gated variant in
`src/unnamed/part_000`).  The JavaScript string operations are embedded
over `List Char`: `toLowerCase` as ASCII lowercasing, `trim` with the
JavaScript whitespace class, `String.prototype.includes` as substring
search, and the few regular expressions used by the intent detectors via a
small matcher for literal/word-boundary/whitespace-run patterns.
-/

namespace VtWoods

/-- JavaScript whitespace class (the set recognised by `trim` and `\s`):
tab, LF, VT, FF, CR, space, NBSP, Ogham space mark, the U+2000–U+200A
spaces, LS, PS, NNBSP, MMSP, ideographic space, BOM. -/
def isJsWhitespace (c : Char) : Bool :=
  let n := c.toNat
  n == 9 || n == 10 || n == 11 || n == 12 || n == 13 || n == 32 ||
  n == 0xa0 || n == 0x1680 || (0x2000 ≤ n && n ≤ 0x200a) ||
  n == 0x2028 || n == 0x2029 || n == 0x202f || n == 0x205f ||
  n == 0x3000 || n == 0xfeff

/-- JavaScript `String.prototype.trim`: strip leading and trailing
whitespace. -/
def jsTrim (s : String) : String :=
  String.mk (((s.data.dropWhile isJsWhitespace).reverse.dropWhile isJsWhitespace).reverse)

/-- JavaScript `String.prototype.toLowerCase`, restricted to its action on
ASCII (every pattern and vocabulary entry in the program is ASCII). -/
def lowerStr (s : String) : String :=
  String.mk (s.data.map Char.toLower)

/-- Is `needle` a prefix of `hay`? (the inner step of substring search). -/
def subAt : List Char → List Char → Bool
  | [], _ => true
  | _ :: _, [] => false
  | a :: ns, b :: hs => a == b && subAt ns hs

/-- Does `hay` contain `needle` as a contiguous substring? -/
def containsSub (needle : List Char) : List Char → Bool
  | [] => subAt needle []
  | c :: rest => subAt needle (c :: rest) || containsSub needle rest

/-- JavaScript `hay.includes(needle)`. -/
def includesStr (needle hay : String) : Bool :=
  containsSub needle.data hay.data

/-- JavaScript regex word character `\w` = `[A-Za-z0-9_]`. -/
def isWordChar (c : Char) : Bool :=
  let n := c.toNat
  (48 ≤ n && n ≤ 57) || (65 ≤ n && n ≤ 90) || (97 ≤ n && n ≤ 122) || n == 95

/-- Word-character test on an optional character; the edge of the string
counts as a non-word character. -/
def isWordOpt : Option Char → Bool
  | none => false
  | some c => isWordChar c

/-- Items of the regular expressions the program uses: a literal
character, a word boundary `\b`, and whitespace runs `\s*` / `\s+`. -/
inductive RItem where
  | lit (c : Char)
  | wb
  | wsStar
  | wsPlus
deriving DecidableEq, Repr

/-- Fuel-indexed matcher: does the pattern match at the start of `l`,
where `prev` is the character just before this position (`none` at the
start of the string)?  `\s+` is consumed one whitespace character at a
time, continuing as `\s*`; because every `\s` item in the program's
patterns sits between letter literals, the greedy/backtracking
distinction is immaterial and the disjunction below covers all match
lengths.  Every recursive call strictly decreases `ps.length + l.length`,
so fuel `ps.length + l.length + 1` always suffices; the fuel only makes
the recursion structural. -/
def matchPatAux : Nat → List RItem → Option Char → List Char → Bool
  | 0, _, _, _ => false
  | _ + 1, [], _, _ => true
  | f + 1, .wb :: ps, prev, l =>
    (isWordOpt prev != isWordOpt l.head?) && matchPatAux f ps prev l
  | _ + 1, .lit _ :: _, _, [] => false
  | f + 1, .lit a :: ps, _, d :: rest => a == d && matchPatAux f ps (some d) rest
  | f + 1, .wsStar :: ps, prev, l =>
    matchPatAux f ps prev l ||
      (match l with
       | [] => false
       | d :: rest => isJsWhitespace d && matchPatAux f (.wsStar :: ps) (some d) rest)
  | _ + 1, .wsPlus :: _, _, [] => false
  | f + 1, .wsPlus :: ps, _, d :: rest =>
    isJsWhitespace d && matchPatAux f (.wsStar :: ps) (some d) rest

/-- Matcher with adequate fuel. -/
def matchPat (ps : List RItem) (prev : Option Char) (l : List Char) : Bool :=
  matchPatAux (ps.length + l.length + 1) ps prev l

/-- Does the pattern match at some position of `l`? `prev` is the
character before the current position. -/
def searchFrom (pats : List RItem) : Option Char → List Char → Bool
  | prev, [] => matchPat pats prev []
  | prev, c :: rest => matchPat pats prev (c :: rest) || searchFrom pats (some c) rest

/-- JavaScript `pattern.test(s)`. -/
def testR (pats : List RItem) (s : String) : Bool :=
  searchFrom pats none s.data

/-- The literal items of a word. -/
def litsOf (w : String) : List RItem :=
  w.data.map RItem.lit

/-- Pattern `\b w \b` for a literal word `w`. -/
def wordPat (w : String) : List RItem :=
  [RItem.wb] ++ litsOf w ++ [RItem.wb]

/-- Does `s` contain `w` as a standalone word (`\bw\b`)? -/
def containsWordB (w s : String) : Bool :=
  testR (wordPat w) s

/-! ## `src/server.js`: required behaviour strings and intent detectors -/

/-- `outOfScope()` (src/server.js:38): the exact refusal sentence. -/
def outOfScope : String :=
  "Your request is beyond the scope and purpose of this app."

/-- `soilsRedirect()` (src/server.js:43). -/
def soilsRedirect : String :=
  "For soils questions, use the official soil map tool (Web Soil Survey) for your specific location."

/-- `isSoilsQuestion` (src/server.js:48): `/\bsoil(s)?\b/.test(m)` —
expanded into the two word alternatives, equivalent because both ends of
the group are word-bounded — or `m.includes('drainage')` or
`m.includes('site index')` on the lowercased message. -/
def isSoilsQuestion (message : String) : Bool :=
  let m := lowerStr message
  containsWordB "soil" m || containsWordB "soils" m ||
  includesStr "drainage" m || includesStr "site index" m

/-- `asksAuthorshipOrFeedback` (src/server.js:54). -/
def asksAuthorshipOrFeedback (message : String) : Bool :=
  let m := lowerStr message
  includesStr "who wrote" m ||
  includesStr "who made" m ||
  includesStr "who built" m ||
  includesStr "who created" m ||
  includesStr "feedback" m ||
  includesStr "suggestion" m ||
  includesStr "feature request" m ||
  includesStr "contact" m ||
  includesStr "email" m ||
  includesStr "developer" m

/-- The `obviouslyUnrelated` blocklist inside `isInScope`
(src/server.js:86). -/
def obviouslyUnrelated : List String :=
  ["recipe", "dating", "movie", "tv show", "bitcoin", "stock", "fantasy football",
   "porn", "celebrity", "astrology", "horoscope"]

/-- U+2019 right single quotation mark, used inside one vocabulary
entry. -/
def rsq : String := String.mk [Char.ofNat 8217]

/-- The `topicSignals` vocabulary inside `isInScope`
(src/server.js:98–123). -/
def topicSignals : List String :=
  ["amp", "acceptable management practice", "waterbar", "turnout", "broad-based dip",
   "stream crossing", "crossing", "culvert", "bridge", "portable bridge",
   "silt fence", "seed", "mulch", "stabilization", "erosion", "sediment", "rut", "rutting",
   "ditch", "drainage", "buffer", "riparian", "wetland",
   "silviculture", "silvicultural", "regeneration", "thinning", "clearcut", "shelterwood",
   "selection", "group selection", "patch cut", "release", "crop tree", "marking",
   "basal area", "tpa", "qmd", "stand improvement",
   "harvest", "timber", "logging", "skid trail", "landing", "haul road", "forest road",
   "forwarder", "skidder", "feller-buncher", "processor", "chainsaw",
   "climate adaptation", "resilience", "invasive", "invasive species", "deer browse",
   "drought", "flood", "ice storm", "windthrow", "blowdown",
   "sawmill", "mill", "lumber", "pulp", "biomass", "firewood", "chips", "pellets",
   "log market", "stumpage", "delivered", "scale", "board feet", "cord",
   "forest action plan", "fia", "forest inventory", "analysis", "tree owner",
   "tree owner" ++ rsq ++ "s manual", "tree owners manual"]

/-- `isInScope` (src/server.js:79): lowercase and trim; empty is treated
as in scope; an explicit `\bvermont\b` or `\bvt\b` mention is in scope
unless an `obviouslyUnrelated` term occurs; otherwise in scope iff some
`topicSignals` entry occurs as a substring. -/
def isInScope (message : String) : Bool :=
  let m := jsTrim (lowerStr message)
  if m = "" then true
  else if containsWordB "vermont" m || containsWordB "vt" m then
    !(obviouslyUnrelated.any fun w => includesStr w m)
  else topicSignals.any fun s => includesStr s m

/-! ## Data model (spec §3) and the `/chat` handler of `src/server.js` -/

/-- The five dispositions of the scope classifier (spec §3). -/
inductive ScopeDecision where
  | Empty
  | Authorship
  | Soils
  | OutOfScope
  | InScope
deriving DecidableEq, Repr

/-- `classify(message)` (spec §4.1): the decision implemented by the guard
cascade of the `/chat` handler (src/server.js:144–164), in the handler's
order. -/
def classify (message : String) : ScopeDecision :=
  if jsTrim message = "" then .Empty
  else if asksAuthorshipOrFeedback message then .Authorship
  else if isSoilsQuestion message then .Soils
  else if isInScope message then .InScope
  else .OutOfScope

/-- The configuration read at startup: `OPENAI_API_KEY` and
`VECTOR_STORE_ID` (src/server.js:18–19); the empty string models an
absent variable, and the OpenAI `client` is constructed iff the key is
non-empty (src/server.js:133). -/
structure Config where
  apiKey : String
  vectorStoreId : String
deriving DecidableEq, Repr

/-- Result of one external generation call (`client.responses.create`
plus the text/annotation extraction of src/server.js:207–226): either the
concatenated `output_text` with its annotation list, or a thrown error's
message. -/
inductive CallResult where
  | ok (text : String) (anns : List String)
  | err (msg : String)
deriving DecidableEq, Repr

/-- Did the external call succeed? -/
def CallResult.isOk : CallResult → Bool
  | .ok _ _ => true
  | .err _ => false

/-- The JSON reply of the `/chat` handler together with its HTTP status;
absent JSON fields are `none`. -/
structure ChatResponse where
  status : Nat
  success : Bool
  answer : Option String
  citations : Option (List String)
  error : Option String
deriving DecidableEq, Repr

/-- Reply for empty input (src/server.js:145). -/
def promptResponse : ChatResponse :=
  ⟨200, true, some "Ask a Vermont forestry question.", none, none⟩

/-- Reply for authorship/feedback questions (src/server.js:150). -/
def developerResponse : ChatResponse :=
  ⟨200, true,
   some "Please contact the developer with your questions or feedback (steve@northeastforests.com).",
   none, none⟩

/-- Reply for soils questions (src/server.js:158). -/
def soilsResponse : ChatResponse :=
  ⟨200, true, some soilsRedirect, none, none⟩

/-- Reply for out-of-scope questions (src/server.js:163). -/
def refusalResponse : ChatResponse :=
  ⟨200, true, some outOfScope, none, none⟩

/-- HTTP 500 reply when `OPENAI_API_KEY` is absent (src/server.js:168). -/
def missingKeyResponse : ChatResponse :=
  ⟨500, false, none, none,
   some "Server is missing OPENAI_API_KEY. Set it in Koyeb environment variables."⟩

/-- HTTP 500 reply when `VECTOR_STORE_ID` is absent (src/server.js:174). -/
def missingStoreResponse : ChatResponse :=
  ⟨500, false, none, none,
   some "Server is missing VECTOR_STORE_ID. Set it in Koyeb environment variables."⟩

/-- The `/chat` handler of src/server.js:139–238 (`route` of spec §4.2).
The external generation call is the parameter `call`; `message` and
`wantCitations` are the coerced request fields.  The final branch mirrors
the answer-text defaulting (src/server.js:218) and the
citations-only-if-requested rule (src/server.js:221–231); a thrown
external call is the `catch` branch (src/server.js:233). -/
def route (cfg : Config) (call : String → CallResult)
    (message : String) (wantCitations : Bool) : ChatResponse :=
  if jsTrim message = "" then promptResponse
  else if asksAuthorshipOrFeedback message then developerResponse
  else if isSoilsQuestion message then soilsResponse
  else if isInScope message = false then refusalResponse
  else if cfg.apiKey = "" then missingKeyResponse
  else if cfg.vectorStoreId = "" then missingStoreResponse
  else
    match call message with
    | .ok text anns =>
      ⟨200, true,
       some (if jsTrim text = "" then "No answer returned." else jsTrim text),
       if wantCitations then some anns else none,
       none⟩
    | .err msg => ⟨500, false, none, none, some msg⟩

/-! ## The retrieval-gated variant (`src/unnamed/part_000`) -/

/-- Pattern `\bdrainage\s+class\b` (src/unnamed/part_000:41). -/
def drainageClassPat : List RItem :=
  [RItem.wb] ++ litsOf "drainage" ++ [RItem.wsPlus] ++ litsOf "class" ++ [RItem.wb]

/-- Pattern `\bweb\s*soil\s*survey\b` (src/unnamed/part_000:41). -/
def webSoilSurveyPat : List RItem :=
  [RItem.wb] ++ litsOf "web" ++ [RItem.wsStar] ++ litsOf "soil" ++ [RItem.wsStar] ++
  litsOf "survey" ++ [RItem.wb]

/-- `isSoilsQuestion` of the variant (src/unnamed/part_000:39). -/
def isSoilsQuestionR (message : String) : Bool :=
  let m := lowerStr message
  containsWordB "soil" m || containsWordB "soils" m ||
  testR drainageClassPat m || testR webSoilSurveyPat m

/-- `asksAuthorshipOrFeedback` of the variant (src/unnamed/part_000:47);
it lacks the `'who created'` entry of src/server.js. -/
def asksAuthorshipOrFeedbackR (message : String) : Bool :=
  let m := lowerStr message
  includesStr "who wrote" m ||
  includesStr "who made" m ||
  includesStr "who built" m ||
  includesStr "feedback" m ||
  includesStr "suggestion" m ||
  includesStr "feature request" m ||
  includesStr "contact" m ||
  includesStr "email" m ||
  includesStr "developer" m

/-- The parse-and-default step of `retrievalLooksRelevant`
(src/unnamed/part_000:102–111): the collected gate output text is
trimmed and handed to `JSON.parse`; on success the judgment is the
truthiness of `obj.relevant`, and any parse exception defaults to
not-relevant.  `JSON.parse` with the `!!obj.relevant` coercion is a
platform builtin (external collaborator) and is abstracted as
`parseRelevant`, returning `none` when `JSON.parse` throws. -/
def retrievalLooksRelevant (parseRelevant : String → Option Bool) (txt : String) : Bool :=
  match parseRelevant (jsTrim txt) with
  | none => false
  | some b => b

/-- The `/chat` handler of src/unnamed/part_000:116–209.  The gate call
of `retrievalLooksRelevant` (src/unnamed/part_000:72–101) is the
parameter `gate`, returning the collected judgment text or a thrown
error's message (which the outer `catch` turns into HTTP 500); `call` is
the full answer call as in `route`.  Configuration checks precede the
retrieval gate in this variant, and there is no keyword scope gate. -/
def handleChat2 (cfg : Config) (gate : String → Except String String)
    (parseRelevant : String → Option Bool) (call : String → CallResult)
    (message : String) (wantCitations : Bool) : ChatResponse :=
  if jsTrim message = "" then promptResponse
  else if asksAuthorshipOrFeedbackR message then developerResponse
  else if isSoilsQuestionR message then soilsResponse
  else if cfg.apiKey = "" then missingKeyResponse
  else if cfg.vectorStoreId = "" then missingStoreResponse
  else
    match gate message with
    | .error e => ⟨500, false, none, none, some e⟩
    | .ok txt =>
      if retrievalLooksRelevant parseRelevant txt = false then refusalResponse
      else
        match call message with
        | .ok text anns =>
          ⟨200, true,
           some (if jsTrim text = "" then "No answer returned." else jsTrim text),
           if wantCitations then some anns else none,
           none⟩
        | .err msg => ⟨500, false, none, none, some msg⟩

/-- The literal message of claim C1 (apostrophe written via its code point). -/
def pieMsg : String := "What" ++ String.mk [Char.ofNat 39] ++ "s a good recipe for apple pie?"

/-- The literal message of claim C6. -/
def ampMsg : String := "What are the AMPs for stream crossings on a logging job?"

theorem dropWhile_nil_of_all {α : Type} {p : α → Bool} :
    ∀ l : List α, (∀ c ∈ l, p c = true) → l.dropWhile p = [] := by
  intro l h
  induction l with
  | nil => rfl
  | cons a l ih =>
    have ha : p a = true := h a (List.mem_cons_self a l)
    simp [List.dropWhile, ha]
    intro c hc
    exact h c (List.mem_cons_of_mem a hc)

theorem all_of_dropWhile_nil {α : Type} {p : α → Bool} :
    ∀ l : List α, l.dropWhile p = [] → ∀ c ∈ l, p c = true := by
  intro l
  induction l with
  | nil => intro _ c hc; cases hc
  | cons a l ih =>
    intro h c hc
    by_cases ha : p a = true
    · rw [List.dropWhile_cons_of_pos ha] at h
      rcases List.mem_cons.mp hc with rfl | hc2
      · exact ha
      · exact ih h c hc2
    · rw [List.dropWhile_cons_of_neg ha] at h
      cases h

theorem jsTrim_eq_empty_iff (s : String) :
    jsTrim s = "" ↔ ∀ c ∈ s.data, isJsWhitespace c = true := by
  constructor
  · intro h c hc
    have hd : ((s.data.dropWhile isJsWhitespace).reverse.dropWhile isJsWhitespace).reverse
        = [] := congrArg String.data h
    rw [List.reverse_eq_nil_iff] at hd
    have h2 := all_of_dropWhile_nil _ hd
    have h3 : ∀ d ∈ s.data.dropWhile isJsWhitespace, isJsWhitespace d = true :=
      fun d hdm => h2 d (List.mem_reverse.mpr hdm)
    have hsplit := List.takeWhile_append_dropWhile isJsWhitespace s.data
    rw [← hsplit] at hc
    rcases List.mem_append.mp hc with h4 | h4
    · exact List.mem_takeWhile_imp h4
    · exact h3 c h4
  · intro h
    have h1 : s.data.dropWhile isJsWhitespace = [] := dropWhile_nil_of_all _ h
    unfold jsTrim
    rw [h1]
    rfl


theorem toLower_eq_self_of_not_upper (c : Char) (h : ¬(65 ≤ c.toNat ∧ c.toNat ≤ 90)) :
    Char.toLower c = c := by
  simp [Char.toLower, h]

theorem toNat_ofNat_of_small {n : Nat} (h : n < 55296) : (Char.ofNat n).toNat = n := by
  unfold Char.ofNat
  rw [dif_pos (Or.inl h)]
  rfl

theorem ws_toLower_iff (c : Char) :
    isJsWhitespace (Char.toLower c) = isJsWhitespace c := by
  by_cases h : 65 ≤ c.toNat ∧ c.toNat ≤ 90
  · have h1 : Char.toLower c = Char.ofNat (c.toNat + 32) := by
      simp [Char.toLower, h]
    have h2 : (Char.ofNat (c.toNat + 32)).toNat = c.toNat + 32 :=
      toNat_ofNat_of_small (by omega)
    have h3 : isJsWhitespace (Char.ofNat (c.toNat + 32)) = false := by
      simp [isJsWhitespace, h2]
      omega
    have h4 : isJsWhitespace c = false := by
      simp [isJsWhitespace]
      omega
    rw [h1, h3, h4]
  · rw [toLower_eq_self_of_not_upper c h]

theorem jsTrim_lower_ne_empty {m : String} (h : jsTrim m ≠ "") :
    jsTrim (lowerStr m) ≠ "" := by
  intro hl
  apply h
  rw [jsTrim_eq_empty_iff] at hl ⊢
  intro c hc
  have hmem : Char.toLower c ∈ (lowerStr m).data := by
    simp only [lowerStr]
    exact List.mem_map.mpr ⟨c, hc, rfl⟩
  have := hl _ hmem
  rwa [ws_toLower_iff] at this

theorem jsTrim_ne_empty_of_mem_lower {m : String} {c : Char}
    (hc : c ∈ (lowerStr m).data) (hnw : isJsWhitespace c = false) :
    jsTrim m ≠ "" := by
  intro h
  rw [jsTrim_eq_empty_iff] at h
  rcases List.mem_map.mp (by simpa [lowerStr] using hc) with ⟨d, hd, rfl⟩
  have hw := h d hd
  rw [← ws_toLower_iff] at hw
  rw [hw] at hnw
  cases hnw


theorem mem_of_matchPatAux_lit :
    ∀ (f : Nat) (ps : List RItem) (prev : Option Char) (l : List Char) (c : Char),
      matchPatAux f ps prev l = true → RItem.lit c ∈ ps → c ∈ l := by
  intro f
  induction f with
  | zero =>
    intro ps prev l c h _
    simp [matchPatAux] at h
  | succ f ih =>
    intro ps prev l c h hmem
    cases ps with
    | nil => cases hmem
    | cons p ps =>
      cases p with
      | wb =>
        rcases List.mem_cons.mp hmem with heq | hmem2
        · exact absurd heq (by simp)
        · simp only [matchPatAux, Bool.and_eq_true] at h
          exact ih ps prev l c h.2 hmem2
      | lit a =>
        cases l with
        | nil => simp [matchPatAux] at h
        | cons d rest =>
          simp only [matchPatAux, Bool.and_eq_true, beq_iff_eq] at h
          rcases List.mem_cons.mp hmem with heq | hmem2
          · have hca : c = a := by
              injection heq
            rw [hca, h.1]
            exact List.mem_cons_self d rest
          · exact List.mem_cons_of_mem d (ih ps (some d) rest c h.2 hmem2)
      | wsStar =>
        have hmem2 : RItem.lit c ∈ ps := by
          rcases List.mem_cons.mp hmem with heq | h2
          · exact absurd heq (by simp)
          · exact h2
        cases l with
        | nil =>
          simp only [matchPatAux, Bool.or_eq_true] at h
          rcases h with h | h
          · exact ih ps prev [] c h hmem2
          · cases h
        | cons d rest =>
          simp only [matchPatAux, Bool.or_eq_true, Bool.and_eq_true] at h
          rcases h with h | h
          · exact ih ps prev (d :: rest) c h hmem2
          · exact List.mem_cons_of_mem d
              (ih (.wsStar :: ps) (some d) rest c h.2 (List.mem_cons_of_mem _ hmem2))
      | wsPlus =>
        have hmem2 : RItem.lit c ∈ ps := by
          rcases List.mem_cons.mp hmem with heq | h2
          · exact absurd heq (by simp)
          · exact h2
        cases l with
        | nil => simp [matchPatAux] at h
        | cons d rest =>
          simp only [matchPatAux, Bool.and_eq_true] at h
          exact List.mem_cons_of_mem d
            (ih (.wsStar :: ps) (some d) rest c h.2 (List.mem_cons_of_mem _ hmem2))

theorem mem_of_searchFrom_lit (pats : List RItem) (c : Char) (hc : RItem.lit c ∈ pats) :
    ∀ (prev : Option Char) (l : List Char), searchFrom pats prev l = true → c ∈ l := by
  intro prev l
  induction l generalizing prev with
  | nil =>
    intro h
    unfold searchFrom matchPat at h
    exact mem_of_matchPatAux_lit _ _ _ _ _ h hc
  | cons d rest ihl =>
    intro h
    simp only [searchFrom, Bool.or_eq_true] at h
    rcases h with h | h
    · exact mem_of_matchPatAux_lit _ _ _ _ _ h hc
    · exact List.mem_cons_of_mem d (ihl (some d) h)

theorem mem_data_of_containsWordB {w s : String} {c : Char}
    (hc : c ∈ w.data) (h : containsWordB w s = true) : c ∈ s.data := by
  have hpat : RItem.lit c ∈ wordPat w := by
    unfold wordPat litsOf
    exact List.mem_append.mpr (Or.inl (List.mem_append.mpr
      (Or.inr (List.mem_map.mpr ⟨c, hc, rfl⟩))))
  unfold containsWordB testR at h
  exact mem_of_searchFrom_lit _ _ hpat none s.data h

theorem jsTrim_ne_empty_of_soil_word {m : String}
    (h : containsWordB "soil" (lowerStr m) = true ∨
         containsWordB "soils" (lowerStr m) = true) :
    jsTrim m ≠ "" := by
  rcases h with h | h
  · exact jsTrim_ne_empty_of_mem_lower
      (mem_data_of_containsWordB (show (Char.mk 115 (by decide)) ∈ "soil".data by decide) h)
      (by decide)
  · exact jsTrim_ne_empty_of_mem_lower
      (mem_data_of_containsWordB (show (Char.mk 115 (by decide)) ∈ "soils".data by decide) h)
      (by decide)


theorem route_empty_eq {m : String} (cfg : Config) (call : String → CallResult)
    (w : Bool) (h : jsTrim m = "") : route cfg call m w = promptResponse := by
  simp [route, h]

theorem route_authorship_eq {m : String} (cfg : Config) (call : String → CallResult)
    (w : Bool) (h1 : jsTrim m ≠ "") (h2 : asksAuthorshipOrFeedback m = true) :
    route cfg call m w = developerResponse := by
  simp [route, h1, h2]

theorem route_soils_eq {m : String} (cfg : Config) (call : String → CallResult)
    (w : Bool) (h1 : jsTrim m ≠ "") (h2 : asksAuthorshipOrFeedback m = false)
    (h3 : isSoilsQuestion m = true) :
    route cfg call m w = soilsResponse := by
  simp [route, h1, h2, h3]

theorem route_refusal_eq {m : String} (cfg : Config) (call : String → CallResult)
    (w : Bool) (h1 : jsTrim m ≠ "") (h2 : asksAuthorshipOrFeedback m = false)
    (h3 : isSoilsQuestion m = false) (h4 : isInScope m = false) :
    route cfg call m w = refusalResponse := by
  simp [route, h1, h2, h3, h4]

theorem classify_inv_empty {m : String} (h : classify m = .Empty) : jsTrim m = "" := by
  by_cases h1 : jsTrim m = ""
  · exact h1
  · exfalso
    unfold classify at h
    by_cases h2 : asksAuthorshipOrFeedback m = true <;>
      by_cases h3 : isSoilsQuestion m = true <;>
        by_cases h4 : isInScope m = true <;>
          simp [h1, h2, h3, h4] at h


/-- Claim C1: the literal apple-pie message classifies as OutOfScope and the
router answers with exactly the fixed refusal sentence, success true. -/
theorem claim1_out_of_scope_refusal :
    classify pieMsg = .OutOfScope ∧
    ∀ (cfg : Config) (call : String → CallResult) (w : Bool),
      route cfg call pieMsg w = refusalResponse := by
  refine ⟨by decide, fun cfg call w => ?_⟩
  exact route_refusal_eq cfg call w (by decide) (by decide) (by decide) (by decide)

/-- Claim C4: an empty or whitespace-only message classifies as Empty and the
router returns the fixed prompt text with success true, for every
configuration and external call (so no external call is consulted). -/
theorem claim4_blank_prompt (m : String)
    (h : ∀ c ∈ m.data, isJsWhitespace c = true) :
    classify m = .Empty ∧
    ∀ (cfg : Config) (call : String → CallResult) (w : Bool),
      route cfg call m w = promptResponse := by
  have he : jsTrim m = "" := (jsTrim_eq_empty_iff m).mpr h
  exact ⟨by simp [classify, he], fun cfg call w => route_empty_eq cfg call w he⟩

/-- Witness for claim C4, at the two-space message. -/
theorem claim4_blank_prompt_witness :
    classify "  " = .Empty ∧
    route ⟨"key", "store"⟩ (fun _ => .err "boom") "  " true = promptResponse := by
  have h := claim4_blank_prompt "  " (by decide)
  exact ⟨h.1, h.2 ⟨"key", "store"⟩ (fun _ => .err "boom") true⟩

/-- Counterexample to claim C5 as stated: the message containing the
standalone word soil together with an authorship keyword is routed to the
developer-contact reply, not to the soils redirect. -/
theorem claim5_counterexample :
    containsWordB "soil" (lowerStr "contact soil") = true ∧
    classify "contact soil" = .Authorship ∧
    route ⟨"key", "store"⟩ (fun _ => .ok "t" []) "contact soil" false =
      developerResponse := by decide

/-- Claim C5 as amended: a message containing the standalone word soil or
soils that does not match the authorship/feedback patterns classifies as
Soils, and the router returns the fixed soils redirect, success true. -/
theorem claim5_soils_redirect (m : String)
    (hword : containsWordB "soil" (lowerStr m) = true ∨
             containsWordB "soils" (lowerStr m) = true)
    (hauth : asksAuthorshipOrFeedback m = false) :
    classify m = .Soils ∧
    ∀ (cfg : Config) (call : String → CallResult) (w : Bool),
      route cfg call m w = soilsResponse := by
  have h1 : jsTrim m ≠ "" := jsTrim_ne_empty_of_soil_word hword
  have h3 : isSoilsQuestion m = true := by
    rcases hword with h | h <;> simp [isSoilsQuestion, h]
  exact ⟨by simp [classify, h1, hauth, h3],
         fun cfg call w => route_soils_eq cfg call w h1 hauth h3⟩

/-- Witness for the amended claim C5. -/
theorem claim5_soils_redirect_witness :
    classify "tell me about soils" = .Soils ∧
    route ⟨"key", "store"⟩ (fun _ => .ok "t" []) "tell me about soils" false =
      soilsResponse := by
  have h := claim5_soils_redirect "tell me about soils" (Or.inr (by decide)) (by decide)
  exact ⟨h.1, h.2 ⟨"key", "store"⟩ (fun _ => .ok "t" []) false⟩

/-- Claim C6: the literal AMP message classifies as InScope, and the
vocabulary entries amp and stream crossing both occur in the lowercased
message. -/
theorem claim6_amp_in_scope :
    classify ampMsg = .InScope ∧
    "amp" ∈ topicSignals ∧ "stream crossing" ∈ topicSignals ∧
    includesStr "amp" (jsTrim (lowerStr ampMsg)) = true ∧
    includesStr "stream crossing" (jsTrim (lowerStr ampMsg)) = true := by decide

/-- Claim C10: the authorship/feedback check takes precedence over the soils
check, and the soils check over the scope gate, in the handler cascade. -/
theorem claim10_precedence (cfg : Config) (call : String → CallResult)
    (m : String) (w : Bool) :
    (jsTrim m ≠ "" → asksAuthorshipOrFeedback m = true →
      route cfg call m w = developerResponse) ∧
    (jsTrim m ≠ "" → asksAuthorshipOrFeedback m = false → isSoilsQuestion m = true →
      route cfg call m w = soilsResponse) :=
  ⟨fun h1 h2 => route_authorship_eq cfg call w h1 h2,
   fun h1 h2 h3 => route_soils_eq cfg call w h1 h2 h3⟩

/-- Witness for claim C10, at a message matching both the authorship and the
soils patterns. -/
theorem claim10_precedence_witness :
    route ⟨"key", "store"⟩ (fun _ => .ok "t" []) "contact me about the soils here" false =
      developerResponse := by
  have h := claim10_precedence ⟨"key", "store"⟩ (fun _ => .ok "t" [])
    "contact me about the soils here" false
  exact h.1 (by decide) (by decide)


/-- Counterexample to claim C2 as stated: this message names Vermont as a
standalone word, matches neither the authorship nor the soils patterns and
is non-empty, yet it classifies as OutOfScope (the blocklist term recipe
overrides the region mention). -/
theorem claim2_counterexample :
    jsTrim "apple pie recipe for vermont" ≠ "" ∧
    asksAuthorshipOrFeedback "apple pie recipe for vermont" = false ∧
    isSoilsQuestion "apple pie recipe for vermont" = false ∧
    containsWordB "vermont" (jsTrim (lowerStr "apple pie recipe for vermont")) = true ∧
    classify "apple pie recipe for vermont" = .OutOfScope := by decide

/-- Claim C2 as amended: for a non-empty message matching neither the
authorship nor the soils patterns, the classifier returns InScope iff
either the message names the region (standalone vermont or vt) and
contains none of the fixed obviously-unrelated blocklist terms, or it does
not name the region and contains at least one topical vocabulary entry;
in every other case it returns OutOfScope. -/
theorem claim2_scope_gate (m : String)
    (h1 : jsTrim m ≠ "")
    (h2 : asksAuthorshipOrFeedback m = false)
    (h3 : isSoilsQuestion m = false) :
    (classify m = .InScope ∨ classify m = .OutOfScope) ∧
    (classify m = .InScope ↔
      (((containsWordB "vermont" (jsTrim (lowerStr m)) = true ∨
         containsWordB "vt" (jsTrim (lowerStr m)) = true) ∧
        (∀ t ∈ obviouslyUnrelated, includesStr t (jsTrim (lowerStr m)) = false)) ∨
       ((containsWordB "vermont" (jsTrim (lowerStr m)) = false ∧
         containsWordB "vt" (jsTrim (lowerStr m)) = false) ∧
        (∃ t ∈ topicSignals, includesStr t (jsTrim (lowerStr m)) = true)))) := by
  have hL : jsTrim (lowerStr m) ≠ "" := jsTrim_lower_ne_empty h1
  have hcl : classify m = if isInScope m then .InScope else .OutOfScope := by
    simp [classify, h1, h2, h3]
  constructor
  · rw [hcl]
    by_cases hin : isInScope m = true <;> simp [hin]
  · rw [hcl]
    by_cases hv1 : containsWordB "vermont" (jsTrim (lowerStr m)) = true <;>
    by_cases hv2 : containsWordB "vt" (jsTrim (lowerStr m)) = true <;>
    by_cases hb : (obviouslyUnrelated.any fun t => includesStr t (jsTrim (lowerStr m))) = true <;>
    by_cases hs : (topicSignals.any fun t => includesStr t (jsTrim (lowerStr m))) = true <;>
      simp_all [isInScope, hL, List.any_eq_true, List.any_eq_false]

/-- Witness for the amended claim C2, a region-naming in-scope message. -/
theorem claim2_scope_gate_witness :
    classify "logging in vermont" = .InScope := by
  have h := claim2_scope_gate "logging in vermont" (by decide) (by decide) (by decide)
  exact h.2.mpr (Or.inl ⟨Or.inl (by decide), by decide⟩)

/-- Claim C3: the response carries a citations field iff citations were
requested, the message classifies as InScope, both configuration values
are present, and the external call succeeds. -/
theorem claim3_citations_iff (cfg : Config) (call : String → CallResult)
    (m : String) (w : Bool) :
    (route cfg call m w).citations ≠ none ↔
      (w = true ∧ classify m = .InScope ∧ cfg.apiKey ≠ "" ∧
       cfg.vectorStoreId ≠ "" ∧ (call m).isOk = true) := by
  by_cases h1 : jsTrim m = ""
  · simp [route, classify, h1, promptResponse]
  by_cases h2 : asksAuthorshipOrFeedback m = true
  · simp [route, classify, h1, h2, developerResponse]
  by_cases h3 : isSoilsQuestion m = true
  · simp [route, classify, h1, h2, h3, soilsResponse]
  by_cases h4 : isInScope m = true
  · by_cases h5 : cfg.apiKey = ""
    · simp [route, classify, h1, h2, h3, h4, h5, missingKeyResponse]
    by_cases h6 : cfg.vectorStoreId = ""
    · simp [route, classify, h1, h2, h3, h4, h5, h6, missingStoreResponse]
    cases hc : call m with
    | ok t a =>
      by_cases hw : w = true <;>
        simp [route, classify, h1, h2, h3, h4, h5, h6, hc, hw, CallResult.isOk]
    | err e =>
      simp [route, classify, h1, h2, h3, h4, h5, h6, hc, CallResult.isOk]
  · have h4f : isInScope m = false := by
      revert h4
      cases isInScope m <;> simp
    simp [route, classify, h1, h2, h3, h4f, refusalResponse]


/-- Counterexample to claim C7 as stated: with both configuration values
absent, a request whose message falls in a deterministic branch still
succeeds with HTTP 200, so missing configuration is not the response to
every request. -/
theorem claim7_counterexample :
    route ⟨"", ""⟩ (fun _ => .err "unused") "hi" false = refusalResponse ∧
    refusalResponse.status = 200 ∧
    refusalResponse.success = true := by decide

/-- Claim C7 as amended: while a required configuration value is absent,
a request fails with HTTP 500 and the corresponding fixed descriptive
message exactly when its decision is InScope (the only branch that needs
the external call); requests in the other branches are answered with
HTTP 200 and success true. -/
theorem claim7_config_missing (cfg : Config) (call : String → CallResult)
    (m : String) (w : Bool)
    (hmiss : cfg.apiKey = "" ∨ cfg.vectorStoreId = "") :
    (classify m = .InScope →
      route cfg call m w =
        (if cfg.apiKey = "" then missingKeyResponse else missingStoreResponse)) ∧
    (classify m ≠ .InScope →
      (route cfg call m w).status = 200 ∧ (route cfg call m w).success = true) := by
  constructor
  · intro hscope
    have h1 : ¬ jsTrim m = "" := by
      intro h1
      simp [classify, h1] at hscope
    have h2 : asksAuthorshipOrFeedback m = false := by
      by_cases h2 : asksAuthorshipOrFeedback m = true
      · simp [classify, h1, h2] at hscope
      · revert h2
        cases asksAuthorshipOrFeedback m <;> simp
    have h3 : isSoilsQuestion m = false := by
      by_cases h3 : isSoilsQuestion m = true
      · simp [classify, h1, h2, h3] at hscope
      · revert h3
        cases isSoilsQuestion m <;> simp
    have h4 : isInScope m = true := by
      by_cases h4 : isInScope m = true
      · exact h4
      · have h4f : isInScope m = false := by
          revert h4
          cases isInScope m <;> simp
        simp [classify, h1, h2, h3, h4f] at hscope
    by_cases h5 : cfg.apiKey = ""
    · simp [route, h1, h2, h3, h4, h5]
    · have h6 : cfg.vectorStoreId = "" := hmiss.resolve_left h5
      simp [route, h1, h2, h3, h4, h5, h6]
  · intro hscope
    by_cases h1 : jsTrim m = ""
    · rw [route_empty_eq cfg call w h1]
      exact ⟨rfl, rfl⟩
    by_cases h2 : asksAuthorshipOrFeedback m = true
    · rw [route_authorship_eq cfg call w h1 h2]
      exact ⟨rfl, rfl⟩
    have h2f : asksAuthorshipOrFeedback m = false := by
      revert h2
      cases asksAuthorshipOrFeedback m <;> simp
    by_cases h3 : isSoilsQuestion m = true
    · rw [route_soils_eq cfg call w h1 h2f h3]
      exact ⟨rfl, rfl⟩
    have h3f : isSoilsQuestion m = false := by
      revert h3
      cases isSoilsQuestion m <;> simp
    have h4f : isInScope m = false := by
      by_cases h4 : isInScope m = true
      · exact absurd (by simp [classify, h1, h2f, h3f, h4]) hscope
      · revert h4
        cases isInScope m <;> simp
    rw [route_refusal_eq cfg call w h1 h2f h3f h4f]
    exact ⟨rfl, rfl⟩

/-- Witness for the amended claim C7: an in-scope message with the
credential absent yields the fixed 500 configuration error. -/
theorem claim7_config_missing_witness :
    route ⟨"", "store"⟩ (fun _ => .ok "t" []) "thinning" false = missingKeyResponse := by
  have h := claim7_config_missing ⟨"", "store"⟩ (fun _ => .ok "t" []) "thinning" false
    (Or.inl rfl)
  have h2 := h.1 (by decide)
  simpa using h2

/-- Claim C9: on the deterministic branches the router output depends only
on the message and the citations flag, so two runs with the same input are
identical whatever the configuration or external call. -/
theorem claim9_deterministic_branches (m : String) (w : Bool)
    (h : classify m ≠ .InScope) :
    ∀ (cfg cfg2 : Config) (call call2 : String → CallResult),
      route cfg call m w = route cfg2 call2 m w := by
  intro cfg cfg2 call call2
  by_cases h1 : jsTrim m = ""
  · rw [route_empty_eq cfg call w h1, route_empty_eq cfg2 call2 w h1]
  by_cases h2 : asksAuthorshipOrFeedback m = true
  · rw [route_authorship_eq cfg call w h1 h2, route_authorship_eq cfg2 call2 w h1 h2]
  have h2f : asksAuthorshipOrFeedback m = false := by
    revert h2
    cases asksAuthorshipOrFeedback m <;> simp
  by_cases h3 : isSoilsQuestion m = true
  · rw [route_soils_eq cfg call w h1 h2f h3, route_soils_eq cfg2 call2 w h1 h2f h3]
  have h3f : isSoilsQuestion m = false := by
    revert h3
    cases isSoilsQuestion m <;> simp
  have h4f : isInScope m = false := by
    by_cases h4 : isInScope m = true
    · exact absurd (by simp [classify, h1, h2f, h3f, h4]) h
    · revert h4
      cases isInScope m <;> simp
  rw [route_refusal_eq cfg call w h1 h2f h3f h4f,
      route_refusal_eq cfg2 call2 w h1 h2f h3f h4f]

/-- Witness for claim C9, at an out-of-scope message under two different
configurations and external calls. -/
theorem claim9_deterministic_branches_witness :
    route ⟨"", ""⟩ (fun _ => .err "x") "hello world" true =
    route ⟨"key", "store"⟩ (fun _ => .ok "t" ["a"]) "hello world" true :=
  claim9_deterministic_branches "hello world" true (by decide)
    ⟨"", ""⟩ ⟨"key", "store"⟩ (fun _ => .err "x") (fun _ => .ok "t" ["a"])

/-- Claim C8: in the retrieval-gated variant, when the gate call returns a
judgment text that fails to parse, the judgment defaults to not-relevant
and the handler answers with the fixed refusal, success true, independent
of the answer call and without surfacing the parse failure. -/
theorem claim8_gate_fail_closed (cfg : Config) (gate : String → Except String String)
    (parseRelevant : String → Option Bool) (call : String → CallResult)
    (m txt : String) (w : Bool)
    (h1 : jsTrim m ≠ "")
    (h2 : asksAuthorshipOrFeedbackR m = false)
    (h3 : isSoilsQuestionR m = false)
    (h4 : cfg.apiKey ≠ "")
    (h5 : cfg.vectorStoreId ≠ "")
    (h6 : gate m = .ok txt)
    (h7 : parseRelevant (jsTrim txt) = none) :
    retrievalLooksRelevant parseRelevant txt = false ∧
    handleChat2 cfg gate parseRelevant call m w = refusalResponse := by
  have hrel : retrievalLooksRelevant parseRelevant txt = false := by
    simp [retrievalLooksRelevant, h7]
  refine ⟨hrel, ?_⟩
  simp [handleChat2, h1, h2, h3, h4, h5, h6, hrel]

/-- Witness for claim C8. -/
theorem claim8_gate_fail_closed_witness :
    handleChat2 ⟨"key", "store"⟩ (fun _ => .ok "not json") (fun _ => none)
      (fun _ => .ok "t" []) "thinning advice" false = refusalResponse := by
  have h := claim8_gate_fail_closed ⟨"key", "store"⟩ (fun _ => .ok "not json")
    (fun _ => none) (fun _ => .ok "t" []) "thinning advice" "not json" false
    (by decide) (by decide) (by decide) (by decide) (by decide) rfl rfl
  exact h.2

end VtWoods
